import Mathlib

/-!
Verification of the agent-loop stop-hook repository.

Strings are modelled as `List Char` (`"…".data`); files as lists of lines
(each line a `List Char` without a newline).  The bash stop hook
(src/unnamed/part_002, "Agent Loop Stop Hook"), the creation hook
(src/unnamed/part_001, extract-and-create-loop.sh) and the TypeScript
controller (src/copilot/src/SweAgentInteraction.ts) are embedded as
executable functions below; each definition cites the source lines it
translates.
-/

/-- Whitespace test used by the JS `trim` model (approximates the Unicode
whitespace class with the ASCII part relevant here). -/
def isWs (c : Char) : Bool := c = ' ' || c = '\t' || c = '\n' || c = '\r'

/-- Model of JavaScript `String.prototype.trim`: strip leading and trailing
whitespace. -/
def trimLC (l : List Char) : List Char :=
  ((l.dropWhile isWs).reverse.dropWhile isWs).reverse

/-- Model of JavaScript `text.split("\n")` (also the line structure `awk`
sees): splitting the empty text yields one empty line. -/
def splitLines (l : List Char) : List (List Char) :=
  l.foldr
    (fun c r =>
      if c = '\n' then [] :: r
      else
        match r with
        | [] => [[c]]
        | h :: t => (c :: h) :: t)
    [[]]

/-- Fuel-driven worker for `splitOnSeq` (structural recursion on the fuel so
that the kernel can evaluate it; the fuel is always at least the list
length). -/
def splitOnSeqF (c0 : Char) (sep : List Char) : Nat → List Char → List (List Char)
  | _, [] => [[]]
  | 0, l => [l]
  | fuel + 1, c :: cs =>
    if (c0 :: sep).isPrefixOf (c :: cs) then
      [] :: splitOnSeqF c0 sep fuel (cs.drop sep.length)
    else
      match splitOnSeqF c0 sep fuel cs with
      | [] => [[c]]
      | h :: t => (c :: h) :: t

/-- Split a character list on every non-overlapping occurrence of the
separator `c0 :: sep`, leftmost first — the field splitting `awk` performs
for the two-character field separator `": "`. -/
def splitOnSeq (c0 : Char) (sep : List Char) (l : List Char) : List (List Char) :=
  splitOnSeqF c0 sep l.length l

/-- Strip trailing newline characters, as `$( … )` command substitution does
in bash. -/
def stripTrailingNl (l : List Char) : List Char :=
  (l.reverse.dropWhile (· = '\n')).reverse

/-- Capture the output of a command printing the given lines, as a bash
`VAR=$( … )` substitution does: join with newlines, then strip trailing
newlines. -/
def capture (outs : List (List Char)) : List Char :=
  stripTrailingNl (List.intercalate ['\n'] outs)

/-- The bash validation `[[ "$X" =~ ^[0-9]+$ ]]` from the stop hook
(part_002 line 120). -/
def isNatStr (l : List Char) : Bool := !l.isEmpty && l.all (·.isDigit)

/-- Value of a digit string read in base 10. -/
def decVal (l : List Char) : Nat := l.foldl (fun n c => n * 10 + (c.toNat - 48)) 0

/-- Value of a digit string read in base 8 (bash treats a leading `0` as an
octal marker in arithmetic contexts). -/
def octVal (l : List Char) : Nat := l.foldl (fun n c => n * 8 + (c.toNat - 48)) 0

/-- Two's-complement wrap of a natural number into the signed 64-bit range,
matching bash arithmetic overflow behaviour. -/
def wrap64 (n : Nat) : Int :=
  let r : Nat := n % 2 ^ 64
  if r < 2 ^ 63 then (r : Int) else (r : Int) - 2 ^ 64

/-- The value bash arithmetic assigns to an all-digit string: leading `0`
selects octal (digits `8`/`9` then make evaluation fail, modelled as `none`),
otherwise decimal; either way wrapped to signed 64 bits. -/
def bashVal (l : List Char) : Option Int :=
  match l with
  | [] => none
  | c :: rest =>
    if c = '0' then
      if rest.all (fun d => d.toNat ≤ 55) then some (wrap64 (octVal rest)) else none
    else some (wrap64 (decVal l))

/-- Bash `$((X + 1))` on an in-range signed 64-bit value. -/
def wrapInc (i : Int) : Int := if i + 1 = 2 ^ 63 then -(2 ^ 63) else i + 1

/-- Fuel-driven worker for `natToDec`. -/
def natToDecF : Nat → Nat → List Char
  | 0, _ => []
  | fuel + 1, n =>
    if n < 10 then [Char.ofNat (48 + n)]
    else natToDecF fuel (n / 10) ++ [Char.ofNat (48 + n % 10)]

/-- Decimal rendering of a natural number. -/
def natToDec (n : Nat) : List Char := natToDecF (n + 1) n

/-- Decimal rendering of an integer, as bash prints arithmetic results. -/
def intToDec (i : Int) : List Char :=
  if i < 0 then '-' :: natToDec (-i).toNat else natToDec i.toNat

/-- Model of JavaScript `String.prototype.toLowerCase` on the ASCII range. -/
def lowerLC (l : List Char) : List Char := l.map Char.toLower

/-- The opening completion marker. -/
def openTag : List Char := "<promise>".data

/-- The closing completion marker. -/
def closeTag : List Char := "</promise>".data

/-- First match of the regex `<promise>([^<]*)<\/promise>` (CONFIG.PROMISE_PATTERN,
SweAgentInteraction.ts line 20), returning the capture group: at each start
position the greedy `[^<]*` must run exactly to the next `<`, which must begin
`</promise>`; otherwise the scan advances one character. -/
def extractRawMatch : List Char → Option (List Char)
  | [] => none
  | c :: cs =>
    if openTag.isPrefixOf (c :: cs) then
      if closeTag.isPrefixOf (((c :: cs).drop 9).dropWhile (· ≠ '<')) then
        some (((c :: cs).drop 9).takeWhile (· ≠ '<'))
      else extractRawMatch cs
    else extractRawMatch cs

/-- `SweAgent.extractPromise` (copilot SweAgentInteraction.ts lines 59-62):
first regex match, group trimmed; an empty trimmed group is falsy in JS and
collapses to `null`. -/
def extractPromise (l : List Char) : Option (List Char) :=
  match extractRawMatch l with
  | none => none
  | some c => if (trimLC c).isEmpty then none else some (trimLC c)

/-- Model of JavaScript `xs.slice(-k)`. -/
def lastK (k : Nat) (xs : List (List Char)) : List (List Char) :=
  xs.drop (xs.length - k)

/-- The pure completion detector implemented by `SweAgent.attemptCompletion`
(copilot lines 101-115, .github lines 93-103): text non-blank, split into
lines, scan the last 10 lines for a line whose first `<promise>…</promise>`
marker trims to exactly the promise (the backward scan order does not affect
the boolean result). -/
def detect (text p : List Char) : Bool :=
  if (trimLC text).isEmpty then false
  else (lastK 10 (splitLines text)).any (fun l => extractPromise l == some p)

/-- The `awk -F': ' '{print $2}'` field access: second field of the line
under the two-character field separator `": "`, empty when there is no such
field. -/
def awkField2 (line : List Char) : List Char :=
  (splitOnSeq ':' [' '] line).getD 1 []

/-- Capture of `awk -F': ' '/^KEY/{print $2}' "$STATE"` over the state-file
lines, for a key pattern anchored at line start (stop hook lines 114-115). -/
def headerField (key : List Char) (st : List (List Char)) : List Char :=
  capture ((st.filter (fun l => key.isPrefixOf l)).map awkField2)

/-- The `ITER` variable of the stop hook (line 114). -/
def iterField (st : List (List Char)) : List Char :=
  headerField ("iteration:".data) st

/-- The `MAX` variable of the stop hook (line 115). -/
def maxField (st : List (List Char)) : List Char :=
  headerField ("max_iterations:".data) st

/-- The `PROMISE` variable of the stop hook (line 116): second field with all
double quotes removed by `gsub`. -/
def promField (st : List (List Char)) : List Char :=
  capture ((st.filter (fun l => ("completion_promise:".data).isPrefixOf l)).map
    (fun l => (awkField2 l).filter (· ≠ '"')))

/-- Worker for the `PROMPT` extraction `awk '/^---$/{i++; next} i>=2'`
(stop hook line 117): every `---` line is skipped and counted; other lines
print once two delimiters have been seen. -/
def bodyLinesAux : List (List Char) → Nat → List (List Char)
  | [], _ => []
  | l :: ls, i =>
    if l = "---".data then bodyLinesAux ls (i + 1)
    else if 2 ≤ i then l :: bodyLinesAux ls i
    else bodyLinesAux ls i

/-- The `PROMPT` variable of the stop hook (line 117). -/
def bodyField (st : List (List Char)) : List Char :=
  capture (bodyLinesAux st 0)

/-- Fuel-driven worker for `grepPromises`. -/
def grepPromisesF : Nat → List Char → List (List Char)
  | 0, _ => []
  | _, [] => []
  | fuel + 1, c :: cs =>
    if openTag.isPrefixOf (c :: cs) then
      if closeTag.isPrefixOf (((c :: cs).drop 9).dropWhile (· ≠ '<')) then
        ((c :: cs).drop 9).takeWhile (· ≠ '<') ::
          grepPromisesF fuel ((((c :: cs).drop 9).dropWhile (· ≠ '<')).drop 10)
      else grepPromisesF fuel cs
    else grepPromisesF fuel cs

/-- All matches printed by `grep -o '<promise>[^<]*</promise>'` on one line,
with the tags already removed by the following `sed 's/<[^>]*>//g'` (stop
hook line 130): the content of each non-overlapping leftmost match. -/
def grepPromises (l : List Char) : List (List Char) :=
  grepPromisesF l.length l

/-- The completion test of the stop hook (lines 127-131) with the promise
string and the last transcript line as inputs: the promise must be non-empty
and not the literal `null`, the transcript must exist (`none` models a
missing `transcript_path` or file), and the captured `FOUND` value must equal
the promise exactly. -/
def hookCompletion (promS : List Char) (transcript : Option (List Char)) : Bool :=
  !promS.isEmpty && promS != "null".data &&
    match transcript with
    | some t => capture (grepPromises t) == promS
    | none => false

/-- The in-place rewrite `sed -i.bak "s/^iteration: .*/iteration: $NEXT/"`
(stop hook line 137): every line starting with `iteration: ` — wherever it
occurs in the file — is replaced whole. -/
def sedIter (st : List (List Char)) (nextS : List Char) : List (List Char) :=
  st.map (fun l =>
    if ("iteration: ".data).isPrefixOf l then "iteration: ".data ++ nextS else l)

/-- ASCII apostrophe. -/
def apos : Char := Char.ofNat 39

/-- The `sed 's/\\/\\\\/g; s/"/\\"/g'` escaping applied to the block reason
(stop hook line 141). -/
def escJson (l : List Char) : List Char :=
  l.flatMap (fun c =>
    if c = '\\' then ['\\', '\\'] else if c = '"' then ['\\', '"'] else [c])

/-- The `tr '\n' ' '` step of the reason construction (stop hook line 141). -/
def trNlToSpace (l : List Char) : List Char :=
  l.map (fun c => if c = '\n' then ' ' else c)

/-- The `AGENT_PROMPT` string of the stop hook (line 139). -/
def agentPrompt (nextS maxS promS : List Char) : List Char :=
  "Iteration ".data ++ nextS ++ ": Execute one PDCA (Plan-Do-Check-Act) LOOP (".data ++
    nextS ++ "/".data ++ maxS ++ ") to achieve mission. When you get perfect fit, output ".data ++
    [apos] ++ openTag ++ promS ++ closeTag ++ [apos] ++ " in your final line.".data

/-- The `reason` field of the emitted block decision (stop hook lines
140-141): the agent prompt concatenated with the stored prompt, escaped,
newlines flattened to spaces; `echo`'s trailing newline becomes a trailing
space under `tr`. -/
def mkReason (nextS maxS promS bodyS : List Char) : List Char :=
  trNlToSpace (escJson (agentPrompt nextS maxS promS ++ " PROMPT - ".data ++ bodyS)) ++ [' ']

/-- The `systemMessage` field of the emitted block decision (line 141). -/
def mkSysMsg (nextS maxS : List Char) : List Char :=
  "LOOP (".data ++ nextS ++ "/".data ++ maxS ++ ")".data

/-- Outcome of one stop-hook invocation: `allow` exits 0 with the given
state file left on disk (`none` = deleted or absent), `block` exits 0 after
rewriting the state file and printing the block decision, `fail` models the
`set -e` abort on a bash arithmetic error (exit 1, state file untouched). -/
inductive HookDecision where
  | allow (newState : Option (List (List Char)))
  | block (newState : List (List Char)) (reason : List Char) (sysMessage : List Char)
  | fail (state : List (List Char))
  deriving DecidableEq

/-- The Agent Loop Stop Hook (src/unnamed/part_002, lines 106-141), as a
function of the state file (as lines; `none` = file absent) and of the last
line of the transcript named by the incoming JSON (`none` = no usable
transcript).  Control flow: missing file allows exit (line 111); non-numeric
counters delete and allow (line 120); `ITER >= MAX && MAX > 0` deletes and
allows (line 123) — an octal-invalid counter makes that arithmetic fail,
which `&&`-guarding ignores; the promise check (lines 126-133) runs only for
`ITER > 2`; otherwise the hook increments `iteration` and blocks (lines
136-141).  A counter bash cannot evaluate reaches `NEXT=$((ITER + 1))` and
aborts under `set -e`. -/
def stopHook (state : Option (List (List Char))) (transcript : Option (List Char)) :
    HookDecision :=
  match state with
  | none => HookDecision.allow none
  | some st =>
    if !(isNatStr (iterField st) && isNatStr (maxField st)) then HookDecision.allow none
    else
      match bashVal (iterField st), bashVal (maxField st) with
      | some i, some m =>
        if i ≥ m ∧ 0 < m then HookDecision.allow none
        else if 2 < i ∧ hookCompletion (promField st) transcript = true then
          HookDecision.allow none
        else
          HookDecision.block (sedIter st (intToDec (wrapInc i)))
            (mkReason (intToDec (wrapInc i)) (maxField st) (promField st) (bodyField st))
            (mkSysMsg (intToDec (wrapInc i)) (maxField st))
      | some i, none =>
        if 2 < i ∧ hookCompletion (promField st) transcript = true then
          HookDecision.allow none
        else
          HookDecision.block (sedIter st (intToDec (wrapInc i)))
            (mkReason (intToDec (wrapInc i)) (maxField st) (promField st) (bodyField st))
            (mkSysMsg (intToDec (wrapInc i)) (maxField st))
      | none, _ => HookDecision.fail st

/-- Whether a hook outcome keeps the loop alive (emits the block decision). -/
def hookContinues : HookDecision → Bool
  | HookDecision.block _ _ _ => true
  | _ => false

/-- The rewritten state file of a block outcome. -/
def blockState : HookDecision → Option (List (List Char))
  | HookDecision.block ns _ _ => some ns
  | _ => none

/-- The state-file document written by the creation hook heredoc
(extract-and-create-loop.sh, part_001 lines 100-110): delimiter, the three
header lines with `iteration: 1`, delimiter, a blank line, then the prompt
text. -/
def mkLoopRecord (maxS promS promptS : List Char) : List (List Char) :=
  ["---".data, "iteration: 1".data, "max_iterations: ".data ++ maxS,
   "completion_promise: \"".data ++ promS ++ "\"".data, "---".data, ([] : List Char)] ++
    splitLines promptS

/-- The tool-invocation creation hook (extract-and-create-loop.sh, part_001
lines 86-110), as a function of the pre-existing state file and of the three
values its layered JSON extraction produced (`max_iterations` defaulting to
`50`, `completion_promise` to `attempt_completion`, `prompt` to empty — the
defaults are applied inside the extraction and are immaterial here): an empty
prompt means "not an agent-loop call" and the hook exits without touching the
file (lines 92-98); otherwise `cat > "$STATE_FILE"` writes the fresh record,
with no check whether a record already exists. -/
def extractAndCreateLoop (existing : Option (List (List Char)))
    (maxS promS promptS : List Char) : Option (List (List Char)) :=
  if promptS.isEmpty then existing else some (mkLoopRecord maxS promS promptS)

/-- The two controller modes of copilot SweAgentInteraction.ts (lines 3-6);
the .github variant names them Auto/Confirm. -/
inductive CMode where
  | yolo
  | confirm
  deriving DecidableEq

/-- The mutable controller state of `SweAgent`/`SweAgentInteraction`
(copilot lines 33-35, 148): mode, pause flag, iteration counter, quitting
flag. -/
structure Ctl where
  mode : CMode
  pause : Bool
  iteration : Nat
  isQuitting : Bool
  deriving DecidableEq

/-- Externally observable actions of a controller run: a producer
(`aiCommand`) call, an executor (`executeCommand`) call, and the terminal
shutdown (`isQuitting` set and the readline interface closed). -/
inductive AEv where
  | producer (prompt : List Char)
  | executor (cmd : List Char)
  | terminal
  deriving DecidableEq

/-- The injected collaborators and fixed configuration of `SweAgent`
(copilot lines 36-57): the async producer and optional executor are modelled
as pure functions of (text, system prompt); `gate` models the human
confirmation callback of `handleConfirmMode` (`none` = skip). -/
structure CtlCfg where
  aiCommand : List Char → List Char → List Char
  executeCommand : Option (List Char → List Char → List Char)
  completionPromise : List Char
  maxIterations : Nat
  gate : List Char → Option (List Char)

/-- Fuel-driven worker for `replaceSeq`. -/
def replaceSeqF (c0 : Char) (pat rep : List Char) : Nat → List Char → List Char
  | 0, l => l
  | _, [] => []
  | fuel + 1, c :: cs =>
    if (c0 :: pat).isPrefixOf (c :: cs) then rep ++ replaceSeqF c0 pat rep fuel (cs.drop pat.length)
    else c :: replaceSeqF c0 pat rep fuel cs

/-- Model of JavaScript `String.prototype.replace` with a global literal
pattern `c0 :: pat`. -/
def replaceSeq (c0 : Char) (pat rep l : List Char) : List Char :=
  replaceSeqF c0 pat rep l.length l

/-- `DEFAULT_SYSTEM_PROMPT` of copilot SweAgentInteraction.ts (lines 27-30). -/
def defaultSystemPrompt : List Char :=
  "Follow every counter hero system all instructions exactly. You are executing the PDCA (Plan-Do-Check-Act) LOOP ([CURRENT] / [MAX]),\n  You will be given a task and you should break it down into smaller steps and execute them one by one.\n  After each step, you should check if it was successful and if not, you should try to fix it before moving on to the next step.\n  EXPLAIN and EXECUTE your PDCA rounds in the best way until you achieve excellence standards, then output ".data ++
    [apos] ++ openTag ++ "[PROMISE]".data ++ closeTag ++ [apos] ++ " in your final line.".data

/-- `SweAgent.getSystemPrompt` (copilot lines 64-68): substitute the current
iteration, the maximum and the promise into the template. -/
def getSystemPrompt (cfg : CtlCfg) (iteration : Nat) : List Char :=
  replaceSeq '[' "PROMISE]".data cfg.completionPromise
    (replaceSeq '[' "MAX]".data (natToDec cfg.maxIterations)
      (replaceSeq '[' "CURRENT]".data (natToDec iteration) defaultSystemPrompt))

/-- `SweAgent.attemptCompletion` (copilot lines 97-127), with the recursive
`this.step` dispatch abstracted as the continuation `k` (dynamic dispatch
lands on the overriding `SweAgentInteraction.step`): in yolo mode a detected
promise or an exhausted iteration budget dispatches the terminal
`step("exit")`, otherwise the same prompt is re-dispatched; in confirm mode
the scan has no control effect. -/
def attemptCompletionK (cfg : CtlCfg) (k : Ctl → Option (List Char) → Ctl × List AEv)
    (st : Ctl) (content prompt : List Char) : Ctl × List AEv :=
  match st.mode with
  | CMode.yolo =>
    if detect content cfg.completionPromise then k st (some "exit".data)
    else if cfg.maxIterations ≤ st.iteration then k st (some "exit".data)
    else k st (some prompt)
  | CMode.confirm => (st, [])

/-- `SweAgent.step` (copilot lines 70-95) followed by `handleCommand` (lines
129-143), with the recursive dispatch abstracted as the continuation `k`:
increment the iteration, call the producer, check the pause flag; with an
executor configured, run the gate callback, check the pause flag again, call
the executor (whose thrown errors the source converts to content text — the
model takes the executor total) and feed its output to the completion check;
with no executor the producer output itself is the content. -/
def stepBodyK (cfg : CtlCfg) (k : Ctl → Option (List Char) → Ctl × List AEv)
    (st : Ctl) (prompt : List Char) (gate : List Char → Option (List Char)) :
    Ctl × List AEv :=
  let st1 := { st with iteration := st.iteration + 1 }
  let out := cfg.aiCommand prompt (getSystemPrompt cfg st1.iteration)
  if st1.pause then (st1, [AEv.producer prompt])
  else
    match cfg.executeCommand with
    | some ex =>
      let out2 := (gate out).getD []
      if st1.pause then (st1, [AEv.producer prompt])
      else
        let content := ex out2 (getSystemPrompt cfg st1.iteration)
        let r := attemptCompletionK cfg k st1 content prompt
        (r.1, AEv.producer prompt :: AEv.executor out2 :: r.2)
    | none =>
      let r := attemptCompletionK cfg k st1 out prompt
      (r.1, AEv.producer prompt :: r.2)

/-- `SweAgentInteraction.step` (copilot lines 232-243), the public step of
the interactive front end, with an explicit fuel bounding the recursion
depth (the source recursion is unbounded in general): a pause or a blank /
null input returns immediately; the `exit` sentinel sets `isQuitting` and
closes the input stream (the terminal event) without reaching the producer;
otherwise the inner step runs — in confirm mode through the human gate
(`handleConfirmMode`, lines 216-230), in yolo mode with the default identity
callback. -/
def stepOuter (cfg : CtlCfg) : Nat → Ctl → Option (List Char) → Ctl × List AEv
  | 0, st, _ => (st, [])
  | Nat.succ f, st, input =>
    if st.pause || (trimLC (input.getD [])).isEmpty then (st, [])
    else if lowerLC (input.getD []) = "exit".data then
      ({ st with isQuitting := true }, [AEv.terminal])
    else
      match st.mode with
      | CMode.confirm => stepBodyK cfg (stepOuter cfg f) st (input.getD []) cfg.gate
      | CMode.yolo => stepBodyK cfg (stepOuter cfg f) st (input.getD []) (fun v => some v)

/-- The pure continue/stop decision of the in-process controller, read off
`SweAgent.attemptCompletion` (copilot lines 107-126): stop when the
completion promise was detected or `iteration >= maxIterations`; otherwise
continue with the same prompt. -/
def ctrlStops (iteration maxIterations : Int) (completion : Bool) : Bool :=
  completion || decide (maxIterations ≤ iteration)

/-- Event filter: producer calls. -/
def isProducerEv : AEv → Bool
  | AEv.producer _ => true
  | _ => false

/-- Event filter: executor calls. -/
def isExecutorEv : AEv → Bool
  | AEv.executor _ => true
  | _ => false

/-- Side effects of one in-flight `SweAgent.step`, for the cooperative
interrupt analysis. -/
inductive PEv where
  | producerCall
  | executorCall
  | completionCheck
  | dispatchNext
  | dispatchExit
  deriving DecidableEq

/-- Abstract environment of one in-flight step: whether an executor is
configured, whether the content will match the promise, whether the
iteration budget is exhausted, and whether the controller is in yolo mode. -/
structure PauseEnv where
  hasExecutor : Bool
  detects : Bool
  reachedMax : Bool
  yolo : Bool
  deriving DecidableEq

/-- Whether the pause flag is visible at a point after `i` completed awaits,
when an external interrupt sets it during await number `k`
(`pauseAt = some k`). -/
def pausedAfter (pauseAt : Option Nat) (i : Nat) : Bool :=
  match pauseAt with
  | some k => decide (k ≤ i)
  | none => false

/-- The tail of `attemptCompletion` (copilot lines 97-127) in the tagged
model: the dispatched `this.step(...)` lands on `SweAgentInteraction.step`
(line 233), whose entry check `if (this.pause || …) return` suppresses the
dispatch when the pause flag is set. -/
def attemptTagged (env : PauseEnv) (paused : Bool) (tag : Nat) : List (Nat × PEv) :=
  if env.yolo then
    if env.detects then (if paused then [] else [(tag, PEv.dispatchExit)])
    else if env.reachedMax then (if paused then [] else [(tag, PEv.dispatchExit)])
    else (if paused then [] else [(tag, PEv.dispatchNext)])
  else []

/-- One in-flight `SweAgent.step` (copilot lines 70-95 with `handleCommand`
lines 129-143) as a tagged event trace: each event carries the number of
await boundaries completed before it.  Await order in the source: (1) the
1-second sleep, line 78 — not followed by a pause check; (2) the producer
call, line 79 — checked at line 83; (3) the gate callback, line 91 (executor
configured only) — checked at line 92; (4) the executor call inside
`handleCommand`, line 136 — not followed by any pause check, so
`attemptCompletion` runs regardless. -/
def stepTagged (env : PauseEnv) (pauseAt : Option Nat) : List (Nat × PEv) :=
  (1, PEv.producerCall) ::
    (if pausedAfter pauseAt 2 then []
     else if env.hasExecutor then
       (if pausedAfter pauseAt 3 then []
        else (3, PEv.executorCall) :: (4, PEv.completionCheck) ::
          attemptTagged env (pausedAfter pauseAt 4) 4)
     else (2, PEv.completionCheck) :: attemptTagged env (pausedAfter pauseAt 2) 2)

/-- Concrete record at the iteration ceiling (iteration 5 of max 5). -/
def recMax : List (List Char) :=
  ["---".data, "iteration: 5".data, "max_iterations: 5".data,
   "completion_promise: \"DONE\"".data, "---".data, ([] : List Char), "task".data]

/-- Concrete record below the grace threshold (iteration 2 of max 5). -/
def recGrace : List (List Char) :=
  ["---".data, "iteration: 2".data, "max_iterations: 5".data,
   "completion_promise: \"DONE\"".data, "---".data, ([] : List Char), "task".data]

/-- Concrete record with a non-numeric iteration counter. -/
def recCorrupt : List (List Char) :=
  ["---".data, "iteration: x".data, "max_iterations: 5".data,
   "completion_promise: \"DONE\"".data, "---".data, ([] : List Char), "task".data]

/-- C1: a persisted record whose parsed `iteration` and `maxIterations` are
integers with `iteration >= maxIterations` and `maxIterations > 0` is deleted
and exit is allowed, for every transcript — the promise check is never
consulted (stop hook line 123 precedes lines 126-133). -/
theorem stopHook_max_reached_allows_exit
    (st : List (List Char)) (tr : Option (List Char)) (i m : Int)
    (hni : isNatStr (iterField st) = true) (hnm : isNatStr (maxField st) = true)
    (hvi : bashVal (iterField st) = some i) (hvm : bashVal (maxField st) = some m)
    (him : m ≤ i) (hm : 0 < m) :
    stopHook (some st) tr = HookDecision.allow none := by
  simp only [stopHook, hni, hnm, hvi, hvm, Bool.and_self, Bool.not_true,
    Bool.false_eq_true, if_false]
  rw [if_pos ⟨him, hm⟩]

/-- Witness for C1: the concrete record at iteration 5 of max 5 is deleted
even though the transcript line carries the exact promise. -/
theorem stopHook_max_reached_allows_exit_witness :
    stopHook (some recMax) (some "<promise>DONE</promise>".data) = HookDecision.allow none :=
  stopHook_max_reached_allows_exit recMax (some "<promise>DONE</promise>".data) 5 5
    (by decide) (by decide) (by decide) (by decide) (by decide) (by decide)

/-- C5: a record at or below the grace threshold (`iteration <= 2`) that has
not reached the ceiling is blocked with the iteration incremented, even when
the transcript matches the completion promise — the promise check (stop hook
lines 126-133) is guarded by `ITER -gt 2` and is skipped entirely. -/
theorem grace_threshold_blocks
    (st : List (List Char)) (tr : Option (List Char)) (i m : Int)
    (hni : isNatStr (iterField st) = true) (hnm : isNatStr (maxField st) = true)
    (hvi : bashVal (iterField st) = some i) (hvm : bashVal (maxField st) = some m)
    (hle : i ≤ 2) (hnc : ¬(i ≥ m ∧ 0 < m))
    (_hmatch : hookCompletion (promField st) tr = true) :
    stopHook (some st) tr =
      HookDecision.block (sedIter st (intToDec (wrapInc i)))
        (mkReason (intToDec (wrapInc i)) (maxField st) (promField st) (bodyField st))
        (mkSysMsg (intToDec (wrapInc i)) (maxField st)) := by
  simp only [stopHook, hni, hnm, hvi, hvm, Bool.and_self, Bool.not_true,
    Bool.false_eq_true, if_false]
  rw [if_neg hnc, if_neg (fun h => absurd h.1 (by omega))]

/-- Witness for C5: the concrete record at iteration 2 of max 5 is blocked
and rewritten to iteration 3 although the transcript line is exactly the
promise marker. -/
theorem grace_threshold_blocks_witness :
    stopHook (some recGrace) (some "<promise>DONE</promise>".data) =
      HookDecision.block (sedIter recGrace (intToDec (wrapInc 2)))
        (mkReason (intToDec (wrapInc 2)) (maxField recGrace) (promField recGrace)
          (bodyField recGrace))
        (mkSysMsg (intToDec (wrapInc 2)) (maxField recGrace)) :=
  grace_threshold_blocks recGrace (some "<promise>DONE</promise>".data) 2 5
    (by decide) (by decide) (by decide) (by decide) (by decide) (by decide) (by decide)

/-- C9: a record whose `iteration` or `max_iterations` field fails the
integer validation is treated as corrupt — deleted, exit allowed (stop hook
line 120), for every transcript; the record never stays in place. -/
theorem corrupt_record_fail_open
    (st : List (List Char)) (tr : Option (List Char))
    (h : isNatStr (iterField st) = false ∨ isNatStr (maxField st) = false) :
    stopHook (some st) tr = HookDecision.allow none := by
  rcases h with h | h <;> simp [stopHook, h]

/-- Witness for C9: the concrete record with `iteration: x` is deleted and
exit allowed. -/
theorem corrupt_record_fail_open_witness :
    stopHook (some recCorrupt) none = HookDecision.allow none :=
  corrupt_record_fail_open recCorrupt none (Or.inl (by decide))

/-- C10: a null, empty or whitespace-only input makes the public
`SweAgentInteraction.step` return immediately (line 233): the controller
state — iteration counter included — is unchanged and neither the producer
nor the executor is called. -/
theorem blank_input_noop
    (cfg : CtlCfg) (fuel : Nat) (st : Ctl) (input : Option (List Char))
    (h : input = none ∨ trimLC (input.getD []) = []) :
    stepOuter cfg fuel st input = (st, []) := by
  have hblank : (trimLC (input.getD [])).isEmpty = true := by
    rcases h with h | h
    · subst h; rfl
    · simp [h]
  cases fuel with
  | zero => rfl
  | succ f => simp [stepOuter, hblank]

/-- Witness for C10: a whitespace-only input is a no-op for a concrete
controller state. -/
theorem blank_input_noop_witness :
    stepOuter
      { aiCommand := fun _ _ => "x".data, executeCommand := none,
        completionPromise := "DONE".data, maxIterations := 3, gate := fun v => some v }
      5 { mode := CMode.yolo, pause := false, iteration := 0, isQuitting := false }
      (some " \t ".data) =
      ({ mode := CMode.yolo, pause := false, iteration := 0, isQuitting := false }, []) :=
  blank_input_noop _ 5 _ (some " \t ".data) (Or.inr (by decide))

/-- Concrete record encoding iteration 1 with `max_iterations: 0` (the
unbounded sentinel). -/
def recUnbounded : List (List Char) :=
  ["---".data, "iteration: 1".data, "max_iterations: 0".data,
   "completion_promise: \"DONE\"".data, "---".data, ([] : List Char), "task".data]

/-- Counterexample to C3: on the same inputs — iteration 1, maxIterations 0,
no completion — the persisted hook continues the loop (its ceiling test
requires `MAX > 0`, line 123) while the in-process controller stops
(`iteration >= maxIterations` holds at `1 >= 0`, copilot line 118): the two
realizations disagree, and the controller does not treat 0 as unbounded. -/
theorem policy_agreement_counterexample :
    hookContinues (stopHook (some recUnbounded) none) = true ∧
      ctrlStops 1 0 (hookCompletion (promField recUnbounded) none) = true := by decide

/-- C3 amended: past the grace threshold (`iteration > 2`) and with a
positive ceiling (`maxIterations > 0`) the persisted hook and the in-process
controller make the same continue/stop decision from the same (iteration,
maxIterations, completion) inputs; the `maxIterations = 0` sentinel is
unbounded only for the hook. -/
theorem policy_agreement_past_grace
    (st : List (List Char)) (tr : Option (List Char)) (i m : Int)
    (hni : isNatStr (iterField st) = true) (hnm : isNatStr (maxField st) = true)
    (hvi : bashVal (iterField st) = some i) (hvm : bashVal (maxField st) = some m)
    (hgt : 2 < i) (hm : 0 < m) :
    hookContinues (stopHook (some st) tr) =
      !(ctrlStops i m (hookCompletion (promField st) tr)) := by
  simp only [stopHook, hni, hnm, hvi, hvm, Bool.and_self, Bool.not_true,
    Bool.false_eq_true, if_false]
  by_cases hge : m ≤ i
  · rw [if_pos ⟨hge, hm⟩]
    show false = !(ctrlStops i m (hookCompletion (promField st) tr))
    simp [ctrlStops, hge]
  · rw [if_neg (fun h => hge h.1)]
    by_cases hc : hookCompletion (promField st) tr = true
    · rw [if_pos ⟨hgt, hc⟩]
      show false = !(ctrlStops i m (hookCompletion (promField st) tr))
      simp [ctrlStops, hc]
    · rw [if_neg (fun h => hc h.2)]
      show true = !(ctrlStops i m (hookCompletion (promField st) tr))
      simp only [Bool.not_eq_true] at hc
      simp [ctrlStops, hc, hge]

/-- Witness for the amended C3: a concrete record at iteration 4 of max 9
with no transcript — the hook blocks and the controller continues alike. -/
theorem policy_agreement_past_grace_witness :
    hookContinues
        (stopHook
          (some ["---".data, "iteration: 4".data, "max_iterations: 9".data,
            "completion_promise: \"DONE\"".data, "---".data, ([] : List Char), "task".data])
          none) =
      !(ctrlStops 4 9
          (hookCompletion
            (promField ["---".data, "iteration: 4".data, "max_iterations: 9".data,
              "completion_promise: \"DONE\"".data, "---".data, ([] : List Char), "task".data])
            none)) :=
  policy_agreement_past_grace _ none 4 9 (by decide) (by decide) (by decide) (by decide)
    (by decide) (by decide)

/-- Concrete record whose prompt body contains a line `iteration: `
(trailing space): the body line yields an empty second awk field, so the
record still validates, but the `sed` rewrite matches it. -/
def recBodyIter : List (List Char) :=
  ["---".data, "iteration: 1".data, "max_iterations: 5".data,
   "completion_promise: \"DONE\"".data, "---".data, ([] : List Char),
   "task".data, "iteration: ".data]

/-- Counterexample to C4: on a record the hook decides to continue, the
rewrite does not leave the body byte-for-byte unchanged — the `sed`
substitution `s/^iteration: .*/iteration: $NEXT/` (line 137) also rewrites
the body line `iteration: ` (line index 7) to `iteration: 2`. -/
theorem rewrite_frame_counterexample :
    blockState (stopHook (some recBodyIter) none) =
      some ["---".data, "iteration: 2".data, "max_iterations: 5".data,
        "completion_promise: \"DONE\"".data, "---".data, ([] : List Char),
        "task".data, "iteration: 2".data] ∧
      recBodyIter.getD 7 [] = "iteration: ".data ∧
      ¬ recBodyIter.getD 7 [] = "iteration: 2".data := by decide

/-- Helper: positional description of the `sed` rewrite. -/
theorem sedIter_get (st : List (List Char)) (nextS : List Char) (k : Nat) :
    (sedIter st nextS).get? k =
      (st.get? k).map (fun l =>
        if ("iteration: ".data).isPrefixOf l then "iteration: ".data ++ nextS else l) := by
  simp [sedIter, List.get?_eq_getElem?, List.getElem?_map]

/-- C4 amended: when the hook decides to continue, it emits a block decision
whose rewritten record replaces every line beginning with `iteration: ` —
the header counter and any body line that happens to begin the same way —
by `iteration: ` followed by the incremented counter, and leaves every other
line (in particular `max_iterations`, `completion_promise`, delimiter lines
and all remaining body lines) unchanged at its position. -/
theorem rewrite_frame_amended
    (st : List (List Char)) (tr : Option (List Char)) (i m : Int)
    (hni : isNatStr (iterField st) = true) (hnm : isNatStr (maxField st) = true)
    (hvi : bashVal (iterField st) = some i) (hvm : bashVal (maxField st) = some m)
    (hnc : ¬(i ≥ m ∧ 0 < m))
    (hnp : ¬(2 < i ∧ hookCompletion (promField st) tr = true)) :
    ∃ reason sys,
      stopHook (some st) tr =
        HookDecision.block (sedIter st (intToDec (wrapInc i))) reason sys ∧
      (sedIter st (intToDec (wrapInc i))).length = st.length ∧
      (∀ k l, st.get? k = some l → ("iteration: ".data).isPrefixOf l = false →
        (sedIter st (intToDec (wrapInc i))).get? k = some l) ∧
      (∀ k l, st.get? k = some l → ("iteration: ".data).isPrefixOf l = true →
        (sedIter st (intToDec (wrapInc i))).get? k =
          some ("iteration: ".data ++ intToDec (wrapInc i))) := by
  refine ⟨mkReason (intToDec (wrapInc i)) (maxField st) (promField st) (bodyField st),
    mkSysMsg (intToDec (wrapInc i)) (maxField st), ?_, ?_, ?_, ?_⟩
  · simp only [stopHook, hni, hnm, hvi, hvm, Bool.and_self, Bool.not_true,
      Bool.false_eq_true, if_false]
    rw [if_neg hnc, if_neg hnp]
  · simp [sedIter]
  · intro k l hk hpre
    rw [sedIter_get, hk]
    simp only [Option.map_some', hpre, Bool.false_eq_true, if_false]
  · intro k l hk hpre
    rw [sedIter_get, hk]
    simp only [Option.map_some', hpre, if_true]

/-- Witness for the amended C4: instantiated on the concrete record whose
body contains an `iteration: ` line, at iteration 1 of max 5. -/
theorem rewrite_frame_amended_witness :
    ∃ reason sys,
      stopHook (some recBodyIter) none =
        HookDecision.block (sedIter recBodyIter (intToDec (wrapInc 1))) reason sys ∧
      (sedIter recBodyIter (intToDec (wrapInc 1))).length = recBodyIter.length ∧
      (∀ k l, recBodyIter.get? k = some l → ("iteration: ".data).isPrefixOf l = false →
        (sedIter recBodyIter (intToDec (wrapInc 1))).get? k = some l) ∧
      (∀ k l, recBodyIter.get? k = some l → ("iteration: ".data).isPrefixOf l = true →
        (sedIter recBodyIter (intToDec (wrapInc 1))).get? k =
          some ("iteration: ".data ++ intToDec (wrapInc 1))) :=
  rewrite_frame_amended recBodyIter none 1 5 (by decide) (by decide) (by decide) (by decide)
    (by decide) (by decide)

/-- Counterexample to C6: the creation hook does not skip creation when a
record already exists — with a record present and a non-empty extracted
prompt, `cat > "$STATE_FILE"` (part_001 line 102) replaces it with a fresh
iteration-1 record instead of leaving it unchanged. -/
theorem create_overwrites_counterexample :
    extractAndCreateLoop (some recGrace) "50".data "attempt_completion".data "fix".data =
      some (mkLoopRecord "50".data "attempt_completion".data "fix".data) ∧
      ¬ extractAndCreateLoop (some recGrace) "50".data "attempt_completion".data "fix".data =
          some recGrace := by decide

/-- C6 amended: the creation hook ignores any pre-existing record — whenever
the extracted prompt is non-empty it unconditionally writes the fresh
iteration-1 record; only an empty prompt (not an agent-loop call) leaves the
file system untouched. -/
theorem create_unconditional_amended
    (existing : Option (List (List Char))) (maxS promS promptS : List Char) :
    (promptS ≠ [] →
      extractAndCreateLoop existing maxS promS promptS =
        some (mkLoopRecord maxS promS promptS)) ∧
    (promptS = [] → extractAndCreateLoop existing maxS promS promptS = existing) := by
  constructor
  · intro h
    simp [extractAndCreateLoop, h]
  · intro h
    simp [extractAndCreateLoop, h]

/-- Witness for the amended C6: a concrete payload with a non-empty prompt
overwrites a concrete pre-existing record, and the same payload with an
empty prompt leaves it alone. -/
theorem create_unconditional_amended_witness :
    ((("fix".data : List Char) ≠ [] →
      extractAndCreateLoop (some recGrace) "50".data "attempt_completion".data "fix".data =
        some (mkLoopRecord "50".data "attempt_completion".data "fix".data)) ∧
    (("fix".data : List Char) = [] →
      extractAndCreateLoop (some recGrace) "50".data "attempt_completion".data "fix".data =
        some recGrace)) := by
  exact create_unconditional_amended (some recGrace) "50".data "attempt_completion".data "fix".data

/-- Concrete scenario-E configuration: yolo (auto) mode, `maxIterations = 3`,
a producer that always returns the exact promise marker, a pass-through
executor. -/
def scenarioECfg : CtlCfg :=
  { aiCommand := fun _ _ => "<promise>OK</promise>".data
    executeCommand := some (fun v _ => v)
    completionPromise := "OK".data
    maxIterations := 3
    gate := fun v => some v }

/-- Initial controller state of a fresh run (`run` resets `iteration` to 0
and clears `pause`, copilot lines 279-280). -/
def scenarioESt : Ctl :=
  { mode := CMode.yolo, pause := false, iteration := 0, isQuitting := false }

/-- Helper: dispatching the `exit` sentinel to `SweAgentInteraction.step`
sets `isQuitting` and emits only the terminal event — the producer is never
reached (copilot lines 235-237). -/
theorem stepOuter_exit (cfg : CtlCfg) (f : Nat) (st : Ctl) (hp : st.pause = false) :
    stepOuter cfg (f + 1) st (some "exit".data) =
      ({ st with isQuitting := true }, [AEv.terminal]) := by
  rw [stepOuter]
  simp only [Option.getD_some, hp, Bool.false_or]
  rw [if_neg (by decide), if_pos (by decide)]

/-- Counterexample to C7: in the scenario-E run the producer is called
exactly once, not twice — the terminal `step("exit")` is intercepted by
`SweAgentInteraction.step` (copilot lines 235-237), which sets `isQuitting`
and closes the input stream without dispatching `exit` to the producer. -/
theorem scenario_e_counterexample :
    ((stepOuter scenarioECfg 10 scenarioESt (some "task".data)).2.filter isProducerEv).length
        = 1 ∧
      ¬ ((stepOuter scenarioECfg 10 scenarioESt
            (some "task".data)).2.filter isProducerEv).length = 2 := by decide

/-- C7 amended: with the controller in yolo (auto) mode at `maxIterations =
3` and content that carries the completion phrase on the first iteration,
the run performs exactly one producer call and one executor call and then
the terminal step: the trace is producer, executor, terminal, the final
iteration is 1 (no second content iteration), and the terminal `exit`
dispatch reaches no producer. -/
theorem scenario_e_amended
    (cfg : CtlCfg) (ex : List Char → List Char → List Char) (task : List Char) (n : Nat)
    (hex : cfg.executeCommand = some ex)
    (_hmax : cfg.maxIterations = 3)
    (hdet : detect (ex (cfg.aiCommand task (getSystemPrompt cfg 1)) (getSystemPrompt cfg 1))
        cfg.completionPromise = true)
    (ht1 : (trimLC task).isEmpty = false)
    (ht2 : ¬ lowerLC task = "exit".data) :
    stepOuter cfg (n + 2)
        { mode := CMode.yolo, pause := false, iteration := 0, isQuitting := false }
        (some task) =
      ({ mode := CMode.yolo, pause := false, iteration := 1, isQuitting := true },
       [AEv.producer task,
        AEv.executor (cfg.aiCommand task (getSystemPrompt cfg 1)),
        AEv.terminal]) := by
  rw [stepOuter]
  simp only [Option.getD_some, ht1, ht2, Bool.or_false, Bool.false_or, if_false, ite_false]
  simp only [stepBodyK, hex, Option.getD_some]
  simp only [attemptCompletionK]
  simp only [hdet, if_true, ite_true]
  rw [stepOuter_exit cfg n _ rfl]
  simp

/-- Witness for the amended C7: the concrete scenario-E configuration. -/
theorem scenario_e_amended_witness :
    stepOuter scenarioECfg 10 scenarioESt (some "task".data) =
      ({ mode := CMode.yolo, pause := false, iteration := 1, isQuitting := true },
       [AEv.producer "task".data,
        AEv.executor (scenarioECfg.aiCommand "task".data (getSystemPrompt scenarioECfg 1)),
        AEv.terminal]) :=
  scenario_e_amended scenarioECfg (fun v _ => v) "task".data 8 rfl rfl (by decide)
    (by decide) (by decide)

/-- Event filter for the C8 analysis: executor calls and completion checks
occurring at or after the boundary at which the pause flag became visible. -/
def bannedAfterPause (k : Nat) (te : Nat × PEv) : Bool :=
  decide (k ≤ te.1) && (te.2 == PEv.executorCall || te.2 == PEv.completionCheck)

/-- Counterexample to C8: with an executor configured, an interrupt that
sets the pause flag during the executor await (boundary 4) does not stop the
step at its next await boundary — `handleCommand` (copilot lines 129-143)
performs no pause check after `await this.executeCommand(...)`, so
`attemptCompletion` (the completion/iteration check) still runs after the
flag is set. -/
theorem pause_contract_counterexample :
    (stepTagged { hasExecutor := true, detects := false, reachedMax := false, yolo := true }
        (some 4)).filter (bannedAfterPause 4) = [(4, PEv.completionCheck)] ∧
      ¬ (stepTagged { hasExecutor := true, detects := false, reachedMax := false, yolo := true }
          (some 4)).filter (bannedAfterPause 4) = [] := by decide

/-- C8 amended: the pause contract holds at the checked await boundaries —
if the flag is set during the sleep, producer or gate awaits (boundaries 1-3)
the step makes no executor call and runs no completion/iteration check from
the next boundary on; and for every boundary (1-4) the recursive step
dispatch is suppressed by the pause check at `SweAgentInteraction.step`
entry.  Only the executor-await boundary (4) leaks a completion check, as
the counterexample records. -/
theorem pause_contract_amended (env : PauseEnv) (k : Nat) (h1 : 1 ≤ k) :
    (k ≤ 3 → (stepTagged env (some k)).filter (bannedAfterPause k) = []) ∧
    (k ≤ 4 → (stepTagged env (some k)).filter
        (fun te => decide (k ≤ te.1) &&
          (te.2 == PEv.dispatchNext || te.2 == PEv.dispatchExit)) = []) := by
  obtain ⟨he, hd, hr, hy⟩ := env
  constructor
  · intro h3
    have hk : k = 1 ∨ k = 2 ∨ k = 3 := by omega
    rcases hk with hk | hk | hk <;> subst hk <;>
      cases he <;> cases hd <;> cases hr <;> cases hy <;> decide
  · intro h4
    have hk : k = 1 ∨ k = 2 ∨ k = 3 ∨ k = 4 := by omega
    rcases hk with hk | hk | hk | hk <;> subst hk <;>
      cases he <;> cases hd <;> cases hr <;> cases hy <;> decide

/-- Witness for the amended C8: pause set during the producer await
(boundary 2) of a step with an executor configured. -/
theorem pause_contract_amended_witness :
    ((2 : Nat) ≤ 3 →
      (stepTagged { hasExecutor := true, detects := true, reachedMax := false, yolo := true }
          (some 2)).filter (bannedAfterPause 2) = []) ∧
    ((2 : Nat) ≤ 4 →
      (stepTagged { hasExecutor := true, detects := true, reachedMax := false, yolo := true }
          (some 2)).filter
        (fun te => decide (2 ≤ te.1) &&
          (te.2 == PEv.dispatchNext || te.2 == PEv.dispatchExit)) = []) :=
  pause_contract_amended
    { hasExecutor := true, detects := true, reachedMax := false, yolo := true } 2 (by decide)

/-- A `<promise>…</promise>` marker occurring in line `l` at offset `a` with
content `c` (the content of a single, non-nested marker contains no `<`). -/
def markerAt (l a c : List Char) : Prop :=
  (∃ b, l = a ++ openTag ++ c ++ closeTag ++ b) ∧ ∀ x ∈ c, x ≠ '<'

/-- The content of the first (leftmost) marker of a line — the declarative
counterpart of the regex first match. -/
def firstMarker (l c : List Char) : Prop :=
  ∃ a, markerAt l a c ∧ ∀ a' c', markerAt l a' c' → a.length ≤ a'.length

/-- A run of non-`<` characters followed by a `<` is cut exactly at the
`<`. -/
theorem takeWhile_append_stop (c r : List Char) (hc : ∀ x ∈ c, x ≠ '<') :
    (c ++ '<' :: r).takeWhile (· ≠ '<') = c := by
  induction c with
  | nil => simp
  | cons y ys ih =>
    have hy : y ≠ '<' := hc y (by simp)
    have ih' := ih (fun x hx => hc x (by simp [hx]))
    simp only [ne_eq, decide_not] at ih' ⊢
    simp [List.takeWhile_cons, hy, ih']

/-- Companion of `takeWhile_append_stop` for `dropWhile`. -/
theorem dropWhile_append_stop (c r : List Char) (hc : ∀ x ∈ c, x ≠ '<') :
    (c ++ '<' :: r).dropWhile (· ≠ '<') = '<' :: r := by
  induction c with
  | nil => simp
  | cons y ys ih =>
    have hy : y ≠ '<' := hc y (by simp)
    have ih' := ih (fun x hx => hc x (by simp [hx]))
    simp only [ne_eq, decide_not] at ih' ⊢
    simp [List.dropWhile_cons, hy, ih']

/-- A marker at offset 0 forces the shape the head test of `extractRawMatch`
checks, and its content is the `takeWhile` run. -/
theorem markerAt_nil_elim (l c : List Char) (h : markerAt l [] c) :
    openTag.isPrefixOf l = true ∧
      closeTag.isPrefixOf ((l.drop 9).dropWhile (· ≠ '<')) = true ∧
      c = (l.drop 9).takeWhile (· ≠ '<') := by
  obtain ⟨⟨b, hl⟩, hc⟩ := h
  simp only [List.nil_append] at hl
  have hdrop : l.drop 9 = c ++ closeTag ++ b := by
    rw [hl, List.append_assoc, List.append_assoc]
    rw [show (9 : Nat) = openTag.length from rfl, List.drop_left]
    rw [← List.append_assoc]
  have hshape : c ++ closeTag ++ b = c ++ '<' :: ("/promise>".data ++ b) := by
    simp [closeTag]
  refine ⟨?_, ?_, ?_⟩
  · rw [ List.isPrefixOf_iff_prefix, hl]
    exact ⟨c ++ closeTag ++ b, by simp⟩
  · rw [hdrop, hshape, dropWhile_append_stop c _ hc, List.isPrefixOf_iff_prefix]
    exact ⟨b, by simp [closeTag]⟩
  · rw [hdrop, hshape, takeWhile_append_stop c _ hc]

/-- Conversely, the head test of `extractRawMatch` succeeding yields a
marker at offset 0 whose content is the `takeWhile` run. -/
theorem markerAt_nil_intro (l : List Char)
    (h1 : openTag.isPrefixOf l = true)
    (h2 : closeTag.isPrefixOf ((l.drop 9).dropWhile (· ≠ '<')) = true) :
    markerAt l [] ((l.drop 9).takeWhile (· ≠ '<')) := by
  rw [ List.isPrefixOf_iff_prefix] at h1 h2
  obtain ⟨t, ht⟩ := h1
  obtain ⟨b, hb⟩ := h2
  have hdrop : l.drop 9 = t := by
    rw [← ht, show (9 : Nat) = openTag.length from rfl, List.drop_left]
  rw [hdrop] at hb
  constructor
  · refine ⟨b, ?_⟩
    rw [hdrop]
    calc l = openTag ++ t := ht.symm
    _ = openTag ++ (t.takeWhile (· ≠ '<') ++ t.dropWhile (· ≠ '<')) := by
        rw [List.takeWhile_append_dropWhile]
    _ = openTag ++ (t.takeWhile (· ≠ '<') ++ (closeTag ++ b)) := by rw [hb]
    _ = [] ++ openTag ++ t.takeWhile (· ≠ '<') ++ closeTag ++ b := by
        simp [List.append_assoc]
  · intro x hx
    rw [hdrop] at hx
    have := List.mem_takeWhile_imp hx
    simpa using this

/-- Shifting a marker offset across a cons cell. -/
theorem markerAt_cons (x : Char) (xs a c : List Char) :
    markerAt (x :: xs) (x :: a) c ↔ markerAt xs a c := by
  unfold markerAt
  constructor
  · rintro ⟨⟨b, hl⟩, hc⟩
    refine ⟨⟨b, ?_⟩, hc⟩
    simpa using hl
  · rintro ⟨⟨b, hl⟩, hc⟩
    refine ⟨⟨b, ?_⟩, hc⟩
    simp [hl]

/-- Any marker of a cons cell is either at offset 0 or a shifted marker of
the tail. -/
theorem markerAt_cons_elim (x : Char) (xs a c : List Char)
    (h : markerAt (x :: xs) a c) :
    (a = [] ∧ markerAt (x :: xs) [] c) ∨ ∃ a₂, a = x :: a₂ ∧ markerAt xs a₂ c := by
  match a with
  | [] => exact Or.inl ⟨rfl, h⟩
  | y :: a₂ =>
    obtain ⟨⟨b, hl⟩, hc⟩ := h
    simp only [List.cons_append] at hl
    have hy : y = x := by injection hl with h1 _; exact h1.symm
    subst hy
    have hxs : xs = a₂ ++ openTag ++ c ++ closeTag ++ b := by injection hl
    exact Or.inr ⟨a₂, rfl, ⟨b, hxs⟩, hc⟩

/-- The regex first match of `extractRawMatch` coincides with the
declarative first marker: the scan returns `some c` exactly when `c` is the
content of the leftmost well-formed `<promise>…</promise>` marker of the
line. -/
theorem extractRawMatch_eq_iff (l : List Char) :
    ∀ c, extractRawMatch l = some c ↔ firstMarker l c := by
  induction l with
  | nil =>
    intro c
    constructor
    · intro h; simp [extractRawMatch] at h
    · rintro ⟨a, ⟨⟨b, hl⟩, -⟩, -⟩
      have := congrArg List.length hl
      simp [openTag, closeTag] at this
      omega
  | cons x xs ih =>
    intro c
    by_cases hom : openTag.isPrefixOf (x :: xs) = true
    · by_cases hcm : closeTag.isPrefixOf (((x :: xs).drop 9).dropWhile (· ≠ '<')) = true
      · -- head match: the scan stops here
        have hhead := markerAt_nil_intro (x :: xs) hom hcm
        have hunfold : extractRawMatch (x :: xs) =
            some (((x :: xs).drop 9).takeWhile (· ≠ '<')) := by
          rw [extractRawMatch]
          rw [if_pos hom, if_pos hcm]
        rw [hunfold]
        constructor
        · intro h
          obtain rfl : ((x :: xs).drop 9).takeWhile (· ≠ '<') = c := by injection h
          exact ⟨[], hhead, fun a' c' _ => Nat.zero_le _⟩
        · rintro ⟨a, hma, hmin⟩
          have ha : a = [] := by
            have := hmin [] _ hhead
            simpa [List.length_eq_zero] using this
          subst ha
          have := (markerAt_nil_elim _ _ hma).2.2
          rw [this]
      · -- open tag present but no closing shape: scan advances
        have hunfold : extractRawMatch (x :: xs) = extractRawMatch xs := by
          rw [extractRawMatch]
          rw [if_pos hom, if_neg hcm]
        have hnohead : ∀ c', ¬ markerAt (x :: xs) [] c' := by
          intro c' hm
          exact hcm (markerAt_nil_elim _ _ hm).2.1
        rw [hunfold, ih c]
        constructor
        · rintro ⟨a, hma, hmin⟩
          refine ⟨x :: a, (markerAt_cons x xs a c).2 hma, ?_⟩
          intro a' c' hma'
          rcases markerAt_cons_elim x xs a' c' hma' with ⟨-, hhead⟩ | ⟨a₂, rfl, hm₂⟩
          · exact absurd hhead (hnohead c')
          · simpa using hmin a₂ c' hm₂
        · rintro ⟨a, hma, hmin⟩
          rcases markerAt_cons_elim x xs a c hma with ⟨-, hhead⟩ | ⟨a₂, rfl, hm₂⟩
          · exact absurd hhead (hnohead c)
          · refine ⟨a₂, hm₂, ?_⟩
            intro a' c' hma'
            have := hmin (x :: a') c' ((markerAt_cons x xs a' c').2 hma')
            simpa using this
    · -- no open tag at this offset: scan advances
      have hunfold : extractRawMatch (x :: xs) = extractRawMatch xs := by
        rw [extractRawMatch]
        rw [if_neg hom]
      have hnohead : ∀ c', ¬ markerAt (x :: xs) [] c' := by
        intro c' hm
        exact hom (markerAt_nil_elim _ _ hm).1
      rw [hunfold, ih c]
      constructor
      · rintro ⟨a, hma, hmin⟩
        refine ⟨x :: a, (markerAt_cons x xs a c).2 hma, ?_⟩
        intro a' c' hma'
        rcases markerAt_cons_elim x xs a' c' hma' with ⟨-, hhead⟩ | ⟨a₂, rfl, hm₂⟩
        · exact absurd hhead (hnohead c')
        · simpa using hmin a₂ c' hm₂
      · rintro ⟨a, hma, hmin⟩
        rcases markerAt_cons_elim x xs a c hma with ⟨-, hhead⟩ | ⟨a₂, rfl, hm₂⟩
        · exact absurd hhead (hnohead c)
        · refine ⟨a₂, hm₂, ?_⟩
          intro a' c' hma'
          have := hmin (x :: a') c' ((markerAt_cons x xs a' c').2 hma')
          simpa using this

/-- A line has at most one first marker. -/
theorem firstMarker_unique (l c c' : List Char)
    (h : firstMarker l c) (h' : firstMarker l c') : c = c' := by
  rw [← extractRawMatch_eq_iff] at h h'
  rw [h] at h'
  injection h'

/-- The promise extraction succeeds with value `p` exactly when the line has
a first marker whose trimmed content is the non-empty `p`. -/
theorem extractPromise_eq_iff (l p : List Char) :
    extractPromise l = some p ↔
      ∃ c, firstMarker l c ∧ trimLC c = p ∧ p ≠ [] := by
  unfold extractPromise
  cases h : extractRawMatch l with
  | none =>
    constructor
    · intro hp
      exact Option.noConfusion hp
    · rintro ⟨c, hc, -, -⟩
      rw [← extractRawMatch_eq_iff] at hc
      rw [h] at hc
      exact Option.noConfusion hc
  | some c0 =>
    have hc0 : firstMarker l c0 := (extractRawMatch_eq_iff l c0).1 h
    by_cases he : (trimLC c0).isEmpty
    · simp only [he, if_true, ite_true]
      constructor
      · intro hp
        exact Option.noConfusion hp
      · rintro ⟨c, hc, htrim, hp⟩
        have hceq : c = c0 := firstMarker_unique l c c0 hc hc0
        subst hceq
        rw [List.isEmpty_iff] at he
        have hpe : p = [] := by rw [← htrim]; exact he
        exact absurd hpe hp
    · simp only [he, if_false, ite_false, Bool.false_eq_true]
      constructor
      · intro hp
        obtain rfl : trimLC c0 = p := by injection hp
        refine ⟨c0, hc0, rfl, ?_⟩
        rw [List.isEmpty_iff] at he
        exact he
      · rintro ⟨c, hc, htrim, -⟩
        have : c = c0 := firstMarker_unique l c c0 hc hc0
        subst this
        rw [htrim]

/-- Counterexample to C2: for the one-line text
`<promise>x</promise> <promise>DONE</promise>` and the phrase `DONE`, the
line does contain a marker whose trimmed content is exactly `DONE`, yet
`detect` is false — the regex takes only the first marker of the line
(content `x`), so the claimed equivalence fails. -/
theorem detect_claim_counterexample :
    ¬ (detect "<promise>x</promise> <promise>DONE</promise>".data "DONE".data = true ↔
        ∃ l ∈ lastK 10 (splitLines "<promise>x</promise> <promise>DONE</promise>".data),
          ∃ a c b, l = a ++ openTag ++ c ++ closeTag ++ b ∧ (∀ x ∈ c, x ≠ '<') ∧
            trimLC c = "DONE".data) := by
  intro hiff
  have hdet : detect "<promise>x</promise> <promise>DONE</promise>".data "DONE".data = false := by
    decide
  have hmem :
      ∃ l ∈ lastK 10 (splitLines "<promise>x</promise> <promise>DONE</promise>".data),
        ∃ a c b, l = a ++ openTag ++ c ++ closeTag ++ b ∧ (∀ x ∈ c, x ≠ '<') ∧
          trimLC c = "DONE".data := by
    refine ⟨"<promise>x</promise> <promise>DONE</promise>".data, by decide,
      "<promise>x</promise> ".data, "DONE".data, [], by decide, ?_, by decide⟩
    intro x hx
    fin_cases hx <;> decide
  rw [hdet] at hiff
  exact Bool.false_ne_true (hiff.2 hmem)

/-- C2 amended: `detect(text, p)` is true exactly when the text is not
whitespace-only and one of the last 10 lines has a first (leftmost)
`<promise>…</promise>` marker whose whitespace-trimmed content is non-empty
and exactly (case-sensitively) equal to `p`; later markers of a line are
never consulted, and a candidate that trims to the empty string never
matches.  Falsity for empty text, promise-free text and case-mismatched
candidates follows. -/
theorem detect_iff_first_marker (text p : List Char) :
    detect text p = true ↔
      ((trimLC text).isEmpty = false ∧
        ∃ l ∈ lastK 10 (splitLines text),
          ∃ c, firstMarker l c ∧ trimLC c = p ∧ p ≠ []) := by
  unfold detect
  by_cases ht : (trimLC text).isEmpty
  · simp [ht]
  · simp only [ht, if_false, ite_false, Bool.false_eq_true, Bool.not_eq_true,
      true_and, List.any_eq_true]
    constructor
    · rintro ⟨l, hl, hp⟩
      rw [beq_iff_eq] at hp
      exact ⟨l, hl, (extractPromise_eq_iff l p).1 hp⟩
    · rintro ⟨l, hl, hc⟩
      exact ⟨l, hl, by rw [beq_iff_eq]; exact (extractPromise_eq_iff l p).2 hc⟩
